import Mathlib

/-!
Verification development for the source-to-source coverage/trace
instrumenter of the diffbug repository.

The instrumentation engine itself (`lib/instrumenter.js`) is not part of
the available sources; only its test suite
(`test/instrumentation/test-statement.js`, `test/instrumentation/test-while.js`),
the test harness (the `Verifier`/`setup` helper), and command-line callers
are.  The engine is therefore modelled from the specification, with the
in-repository test fixtures pinning every observable behaviour the claims
mention.  The model is a shallow embedding:

* a small JS-like language covering the constructs the fixtures use
  (variable declarations, expression statements, `while`, `if`/`else`,
  blocks, labels, `continue`/`break`, `return`, function declarations,
  ternary conditionals, comparisons, assignment, postfix increment);
* the location-index builder / rewriter as a single pre-order traversal
  assigning dense 1-based ids per category and inserting counting probes;
* the parser adapter as a function over structured source text (the real
  parser is an external collaborator; syntactic validity is part of the
  input data), including shebang neutralisation and the wrapping policy
  for top-level `return`;
* a fuel-based interpreter for instrumented programs that mutates a
  file-keyed runtime record, mirroring the `vm.runInThisContext` harness
  of the test suite (an `args` array in scope, an `output` variable
  collected at the end).
-/

namespace Diffbug

/-- JS-like runtime values used by the modelled interpreter. -/
inductive Value where
  | vnum (n : Int)
  | vstr (s : String)
  | vbool (b : Bool)
  | vundefined
deriving Repr, DecidableEq

/-- JS truthiness of a value. -/
def truthy : Value → Bool
  | .vnum n => n != 0
  | .vstr s => s != ""
  | .vbool b => b
  | .vundefined => false

/-- Strict less-than on values: defined on numbers, false otherwise. -/
def jsLt : Value → Value → Value
  | .vnum a, .vnum b => .vbool (a < b)
  | _, _ => .vbool false

/-- Strict greater-than on values: defined on numbers, false otherwise. -/
def jsGt : Value → Value → Value
  | .vnum a, .vnum b => .vbool (a > b)
  | _, _ => .vbool false

/-- Expressions of the modelled language.  `incrB` is the branch-probe
wrapper inserted by the rewriter around a branch alternative: it bumps
`b[bid][alt]` and then evaluates the wrapped expression. -/
inductive Expr where
  | num (n : Int)
  | str (s : String)
  | ident (x : String)
  | argIdx (i : Nat)
  | lt (a b : Expr)
  | gt (a b : Expr)
  | stricteq (a b : Expr)
  | cond (c t e : Expr)
  | assign (x : String) (e : Expr)
  | postIncr (x : String)
  | incrB (bid alt : Nat) (e : Expr)
deriving Repr, DecidableEq

mutual
/-- Statements of the modelled language.  `incrS`/`incrF` are the
statement/function probes inserted by the rewriter.  An `if` without an
`else` in the surface source is represented with an empty block as its
alternate (the synthetic implicit else of the specification). -/
inductive Stmt where
  | varDecl (ds : List (String × Option Expr)) : Stmt
  | exprStmt (e : Expr) : Stmt
  | whileS (c : Expr) (body : Stmt) : Stmt
  | ifS (c : Expr) (t : Stmt) (e : Stmt) : Stmt
  | block (ss : StmtList) : Stmt
  | ret (e : Option Expr) : Stmt
  | labeled (l : String) (s : Stmt) : Stmt
  | contS (l : Option String) : Stmt
  | brkS (l : Option String) : Stmt
  | funcDecl (f : String) (ps : List String) (body : StmtList) : Stmt
  | incrS (sid : Nat) : Stmt
  | incrF (fid : Nat) : Stmt
  | emptyS : Stmt

/-- A list of statements (mutual with `Stmt` so that structural recursion
over programs stays simple). -/
inductive StmtList where
  | nil : StmtList
  | cons (s : Stmt) (rest : StmtList) : StmtList
end

/-- The instrumentation map: per category, the assigned ids in assignment
order; branch entries additionally carry the alternative count. -/
structure IMap where
  statements : List Nat
  branches : List (Nat × Nat)
  functions : List Nat
deriving Repr, DecidableEq

/-- Traversal state of the location index builder: the next id per
category plus the map accumulated so far. -/
structure IState where
  sc : Nat
  bc : Nat
  fc : Nat
  map : IMap
deriving Repr

/-- Initial traversal state: ids are 1-based per the specification. -/
def initState : IState := ⟨1, 1, 1, ⟨[], [], []⟩⟩

/-- Allocate the next statement id. -/
def freshS (st : IState) : Nat × IState :=
  (st.sc, ⟨st.sc + 1, st.bc, st.fc,
    ⟨st.map.statements ++ [st.sc], st.map.branches, st.map.functions⟩⟩)

/-- Allocate the next branch id, recording its alternative count. -/
def freshB (alts : Nat) (st : IState) : Nat × IState :=
  (st.bc, ⟨st.sc, st.bc + 1, st.fc,
    ⟨st.map.statements, st.map.branches ++ [(st.bc, alts)], st.map.functions⟩⟩)

/-- Allocate the next function id. -/
def freshF (st : IState) : Nat × IState :=
  (st.fc, ⟨st.sc, st.bc, st.fc + 1,
    ⟨st.map.statements, st.map.branches, st.map.functions ++ [st.fc]⟩⟩)

/-- Instrument an expression: a ternary conditional is one branch id with
two alternatives, each alternative wrapped so that taking it bumps its
0-based slot; all other expressions are rewritten structurally. -/
def instExpr : Expr → IState → Expr × IState
  | .num n, st => (.num n, st)
  | .str s, st => (.str s, st)
  | .ident x, st => (.ident x, st)
  | .argIdx i, st => (.argIdx i, st)
  | .lt a b, st =>
      let (a', st1) := instExpr a st
      let (b', st2) := instExpr b st1
      (.lt a' b', st2)
  | .gt a b, st =>
      let (a', st1) := instExpr a st
      let (b', st2) := instExpr b st1
      (.gt a' b', st2)
  | .stricteq a b, st =>
      let (a', st1) := instExpr a st
      let (b', st2) := instExpr b st1
      (.stricteq a' b', st2)
  | .cond c t e, st =>
      let (bid, st1) := freshB 2 st
      let (c', st2) := instExpr c st1
      let (t', st3) := instExpr t st2
      let (e', st4) := instExpr e st3
      (.cond c' (.incrB bid 0 t') (.incrB bid 1 e'), st4)
  | .assign x e, st =>
      let (e', st1) := instExpr e st
      (.assign x e', st1)
  | .postIncr x, st => (.postIncr x, st)
  | .incrB i k e, st =>
      let (e', st1) := instExpr e st
      (.incrB i k e', st1)

/-- Instrument an optional expression. -/
def instExprOpt : Option Expr → IState → Option Expr × IState
  | none, st => (none, st)
  | some e, st =>
      let (e', st1) := instExpr e st
      (some e', st1)

/-- Instrument the declarator list of a `var` declaration. -/
def instDecls : List (String × Option Expr) → IState → List (String × Option Expr) × IState
  | [], st => ([], st)
  | (x, eo) :: rest, st =>
      let (eo', st1) := instExprOpt eo st
      let (rest', st2) := instDecls rest st1
      ((x, eo') :: rest', st2)

/-- Wrap a rewritten statement with its statement probe: the increment of
`s[sid]` runs immediately before the statement's own code. -/
def probe (sid : Nat) (s : Stmt) : Stmt :=
  .block (.cons (.incrS sid) (.cons s .nil))

mutual
/-- Instrument one statement: every executable statement receives the next
statement id (pre-order, before its children are visited) and is preceded
by its `incrS` probe; bare blocks receive no id of their own, only their
children do.  An `if` is one branch id with two alternatives, each
alternative wrapped so that taking it bumps its 0-based slot (an absent
else is the synthetic implicit alternative).  A label keeps attaching
directly to its loop: the loop's own probe is hoisted in front of the
label.  A function body's `incrF` probe becomes its first instruction. -/
def instStmt (s : Stmt) (st : IState) : Stmt × IState :=
  match s with
  | .block ss =>
      let (ss', st1) := instStmts ss st
      (.block ss', st1)
  | .varDecl ds =>
      let (sid, st1) := freshS st
      let (ds', st2) := instDecls ds st1
      (probe sid (.varDecl ds'), st2)
  | .exprStmt e =>
      let (sid, st1) := freshS st
      let (e', st2) := instExpr e st1
      (probe sid (.exprStmt e'), st2)
  | .whileS c b =>
      let (sid, st1) := freshS st
      let (c', st2) := instExpr c st1
      let (b', st3) := instStmt b st2
      (probe sid (.whileS c' b'), st3)
  | .ifS c t e =>
      let (sid, st1) := freshS st
      let (bid, st2) := freshB 2 st1
      let (c', st3) := instExpr c st2
      let (t', st4) := instStmt t st3
      let (e', st5) := instStmt e st4
      (probe sid (.ifS c'
        (.block (.cons (.exprStmt (.incrB bid 0 (.num 0))) (.cons t' .nil)))
        (.block (.cons (.exprStmt (.incrB bid 1 (.num 0))) (.cons e' .nil)))), st5)
  | .ret eo =>
      let (sid, st1) := freshS st
      let (eo', st2) := instExprOpt eo st1
      (probe sid (.ret eo'), st2)
  | .labeled l inner =>
      let (sid, st1) := freshS st
      match inner with
      | .whileS c b =>
          let (sid2, st2) := freshS st1
          let (c', st3) := instExpr c st2
          let (b', st4) := instStmt b st3
          (.block (.cons (.incrS sid) (.cons (.incrS sid2)
            (.cons (.labeled l (.whileS c' b')) .nil))), st4)
      | .block ss =>
          let (ss', st2) := instStmts ss st1
          (probe sid (.labeled l (.block ss')), st2)
      | inner =>
          let (inner', st2) := instStmt inner st1
          (probe sid (.labeled l inner'), st2)
  | .contS l =>
      let (sid, st1) := freshS st
      (probe sid (.contS l), st1)
  | .brkS l =>
      let (sid, st1) := freshS st
      (probe sid (.brkS l), st1)
  | .funcDecl f ps body =>
      let (sid, st1) := freshS st
      let (fid, st2) := freshF st1
      let (body', st3) := instStmts body st2
      (probe sid (.funcDecl f ps (.cons (.incrF fid) body')), st3)
  | .incrS i =>
      let (sid, st1) := freshS st
      (probe sid (.incrS i), st1)
  | .incrF i =>
      let (sid, st1) := freshS st
      (probe sid (.incrF i), st1)
  | .emptyS =>
      let (sid, st1) := freshS st
      (probe sid .emptyS, st1)

/-- Instrument a statement list in textual order. -/
def instStmts (ss : StmtList) (st : IState) : StmtList × IState :=
  match ss with
  | .nil => (.nil, st)
  | .cons s rest =>
      let (s', st1) := instStmt s st
      let (rest', st2) := instStmts rest st1
      (.cons s' rest', st2)
end

/-- The instrumentation map produced for a program. -/
def imapOf (p : StmtList) : IMap := (instStmts p initState).2.map

/-! ### Parser adapter, wrapping policy and entry points

The real parser (an external collaborator producing a standard-shaped AST)
is modelled over structured source text: a unit is either well-formed,
carrying the program the parser would produce, or malformed, carrying the
parse-error message.  A shebang first line is carried separately; an
un-neutralised shebang is a syntax error for the parser, and whether a
top-level `return` parses depends on whether the unit is parsed as a
function body (the wrapping policy). -/

/-- Outcome of tokenising the (shebang-neutralised) body of a unit:
well-formed source carrying its program, or malformed source carrying the
parse-error message. -/
inductive SrcBody where
  | good (prog : StmtList)
  | bad (msg : String)

/-- A unit of source text: an optional shebang first line plus the body. -/
structure JsText where
  shebang : Option String
  body : SrcBody

/-- A dynamically typed input to the entry points: text, or some non-text
value (an object, a number, ...) described only for error reporting. -/
inductive JsInput where
  | text (t : JsText)
  | nonText (desc : String)

/-- Engine failures: a precondition violation raised synchronously
(non-text input), or a parse failure reported through the error channel. -/
inductive EngineError where
  | typeErr (msg : String)
  | parseErr (msg : String)
deriving Repr, DecidableEq

mutual
/-- Whether a statement contains a `return` outside any function body
(such a `return` is legal only when the unit is parsed as a function
body). -/
def stmtHasReturn : Stmt → Bool
  | .ret _ => true
  | .block ss => listHasReturn ss
  | .whileS _ b => stmtHasReturn b
  | .ifS _ t e => stmtHasReturn t || stmtHasReturn e
  | .labeled _ s => stmtHasReturn s
  | _ => false

/-- Whether a statement list contains a top-level `return`. -/
def listHasReturn : StmtList → Bool
  | .nil => false
  | .cons s rest => stmtHasReturn s || listHasReturn rest
end

/-- Modelled from the spec: preprocessing of the missing instrumenter
neutralises a shebang-style first line before parsing (replacing it so it
no longer reaches the parser). -/
def preprocess (t : JsText) : JsText := { shebang := none, body := t.body }

/-- Modelled from the spec: the parser adapter of the missing
instrumenter.  A unit whose shebang was not neutralised is a syntax
error; a malformed body is a parse failure carrying its message; a
top-level `return` is an illegal-return parse failure unless the unit is
parsed as a function body (wrapping enabled). -/
def parseAdapter (t : JsText) (asFnBody : Bool) : Except EngineError StmtList :=
  match t.shebang with
  | some _ => .error (.parseErr "Unexpected token ILLEGAL")
  | none =>
    match t.body with
    | .bad msg => .error (.parseErr msg)
    | .good p =>
        if !asFnBody && listHasReturn p then
          .error (.parseErr "Illegal return statement")
        else
          .ok p

/-- Options recognised by the modelled instrumenter (`debug`/`walkDebug`
have no instrumentation semantics and are omitted; `embedSource` is
outside the modelled subset since the abstract source carries no raw
lines). -/
structure Options where
  traceVariable : String
  noAutoWrap : Bool
deriving Repr, DecidableEq

/-- Worker for `spliceTemplate` over character lists, with a fuel bound
(each step consumes at least one character, so the text's length is
enough fuel). -/
def spliceGo (fuel : Nat) (marker repl : List Char) (cs : List Char) : List Char :=
  match fuel, cs with
  | 0, cs => cs
  | _, [] => []
  | fuel + 1, t :: ts =>
      if marker.isPrefixOf (t :: ts) && !marker.isEmpty then
        repl ++ spliceGo fuel marker repl ((t :: ts).drop marker.length)
      else
        t :: spliceGo fuel marker repl ts

/-- Literal (non-pattern) template substitution used when splicing the
caller-supplied trace-variable name into the generated preamble: every
occurrence of the marker is replaced by the replacement text verbatim, so
dollar signs in the replacement are never expanded as replacement
patterns. -/
def spliceTemplate (template marker repl : String) : String :=
  ⟨spliceGo template.data.length marker.data repl.data template.data⟩

/-- The textual template of the generated preamble, with `%TRACE%` as the
placeholder for the trace-variable name. -/
def preambleTemplate : String :=
  "if (typeof %TRACE% === \"undefined\") %TRACE% = \x7b\x7d;"

/-- The generated text and map produced by a successful instrumentation:
the file key the preamble will use, the trace-variable slot name, the
spliced preamble text, the instrumented program, the instrumentation map,
and whether the invocable wrapper was applied. -/
structure Output where
  preambleKey : String
  traceVar : String
  preambleText : String
  prog : StmtList
  imap : IMap
  wrapped : Bool

/-- Modelled from the spec: the synchronous entry point of the missing
instrumenter.  A non-text input is a precondition violation raised before
any parsing; otherwise the unit is preprocessed (shebang neutralised),
parsed under the wrapping policy, indexed and rewritten.  A missing file
key falls back to the internal placeholder `undefined.js`. -/
def instrumentSync (input : JsInput) (key : Option String) (opts : Options) :
    Except EngineError Output :=
  match input with
  | .nonText _ => .error (.typeErr "Code must be a string")
  | .text t =>
    let fname := key.getD "undefined.js"
    match parseAdapter (preprocess t) (!opts.noAutoWrap) with
    | .error e => .error e
    | .ok p =>
      let (p', st) := instStmts p initState
      .ok { preambleKey := fname
            traceVar := opts.traceVariable
            preambleText := spliceTemplate preambleTemplate "%TRACE%" opts.traceVariable
            prog := p'
            imap := st.map
            wrapped := !opts.noAutoWrap }

/-! ### Runtime record and execution of generated code -/

/-- The per-file runtime record: statement, branch and function hit
counts, as ordered association lists keyed by id. -/
structure FileRecord where
  s : List (Nat × Nat)
  b : List (Nat × List Nat)
  f : List (Nat × Nat)
deriving Repr, DecidableEq

/-- Bump a counter in an id-keyed count list (ids are pre-seeded by the
preamble, so the id is present in every reachable use). -/
def bumpCount : List (Nat × Nat) → Nat → List (Nat × Nat)
  | [], i => [(i, 1)]
  | (k, n) :: rest, i =>
      if k = i then (k, n + 1) :: rest else (k, n) :: bumpCount rest i

/-- Bump slot `alt` of a branch's count array. -/
def bumpSlot (arr : List Nat) (alt : Nat) : List Nat :=
  arr.set alt (arr.getD alt 0 + 1)

/-- Bump alternative `alt` of branch `i` in the branch count list. -/
def bumpBranch : List (Nat × List Nat) → Nat → Nat → List (Nat × List Nat)
  | [], _, _ => []
  | (k, arr) :: rest, i, alt =>
      if k = i then (k, bumpSlot arr alt) :: rest
      else (k, arr) :: bumpBranch rest i alt

/-- The record the generated preamble creates on first execution for a
file key: every statement id pre-seeded with a zero count (the test
fixtures pin this: statements that never ran are observable with count
0), every branch id pre-seeded with a zero-array sized to its alternative
count (as the specification says), and `f` starting as an empty map (as
the specification says; no in-repository fixture has function ids, so
nothing forces more). -/
def initRecord (m : IMap) : FileRecord :=
  { s := m.statements.map (fun i => (i, 0))
    b := m.branches.map (fun p => (p.1, List.replicate p.2 0))
    f := [] }

/-- The variable environment of the interpreter. -/
abbrev Env := List (String × Value)

/-- Read a variable; undeclared variables read as `undefined`. -/
def envGet (env : Env) (x : String) : Value := (env.lookup x).getD .vundefined

/-- Write a variable (newest binding shadows older ones). -/
def envSet (env : Env) (x : String) (v : Value) : Env := (x, v) :: env

/-- Evaluate an expression; expressions cannot diverge in the modelled
language (there are no calls), so evaluation is total.  Probe expressions
mutate the file record. -/
def evalExpr (e : Expr) (env : Env) (r : FileRecord) (args : List Value) :
    Value × Env × FileRecord :=
  match e with
  | .num n => (.vnum n, env, r)
  | .str s => (.vstr s, env, r)
  | .ident x => (envGet env x, env, r)
  | .argIdx i => (args.getD i .vundefined, env, r)
  | .lt a b =>
      let (va, env1, r1) := evalExpr a env r args
      let (vb, env2, r2) := evalExpr b env1 r1 args
      (jsLt va vb, env2, r2)
  | .gt a b =>
      let (va, env1, r1) := evalExpr a env r args
      let (vb, env2, r2) := evalExpr b env1 r1 args
      (jsGt va vb, env2, r2)
  | .stricteq a b =>
      let (va, env1, r1) := evalExpr a env r args
      let (vb, env2, r2) := evalExpr b env1 r1 args
      (.vbool (va = vb), env2, r2)
  | .cond c t e =>
      let (vc, env1, r1) := evalExpr c env r args
      if truthy vc then evalExpr t env1 r1 args else evalExpr e env1 r1 args
  | .assign x e =>
      let (v, env1, r1) := evalExpr e env r args
      (v, envSet env1 x v, r1)
  | .postIncr x =>
      match envGet env x with
      | .vnum n => (.vnum n, envSet env x (.vnum (n + 1)), r)
      | v => (v, env, r)
  | .incrB i k e =>
      evalExpr e env { r with b := bumpBranch r.b i k } args

/-- Execute the declarators of a `var` declaration in order. -/
def execDecls : List (String × Option Expr) → Env → FileRecord → List Value →
    Env × FileRecord
  | [], env, r, _ => (env, r)
  | (x, none) :: rest, env, r, args =>
      execDecls rest (envSet env x .vundefined) r args
  | (x, some e) :: rest, env, r, args =>
      let (v, env1, r1) := evalExpr e env r args
      execDecls rest (envSet env1 x v) r1 args

/-- Completion of a statement: normal, a `return` with its value, or a
pending `break`/`continue` (optionally labeled). -/
inductive Comp where
  | norm
  | ret (v : Value)
  | brk (l : Option String)
  | cont (l : Option String)
deriving Repr, DecidableEq

mutual
/-- Execute one statement under a fuel bound; every recursive step
consumes one unit of fuel, and `none` means fuel ran out.  `labs` carries
the labels attached directly to this statement, so a labeled loop
consumes `break`/`continue` targeting its label. -/
def execStmt : Nat → Stmt → List String → Env → FileRecord → List Value →
    Option (Comp × Env × FileRecord)
  | 0, _, _, _, _, _ => none
  | fuel + 1, s, labs, env, r, args =>
    match s with
    | .incrS i => some (.norm, env, { r with s := bumpCount r.s i })
    | .incrF i => some (.norm, env, { r with f := bumpCount r.f i })
    | .emptyS => some (.norm, env, r)
    | .varDecl ds =>
        let (env1, r1) := execDecls ds env r args
        some (.norm, env1, r1)
    | .exprStmt e =>
        let (_, env1, r1) := evalExpr e env r args
        some (.norm, env1, r1)
    | .ret none => some (.ret .vundefined, env, r)
    | .ret (some e) =>
        let (v, env1, r1) := evalExpr e env r args
        some (.ret v, env1, r1)
    | .brkS l => some (.brk l, env, r)
    | .contS l => some (.cont l, env, r)
    | .funcDecl _ _ _ => some (.norm, env, r)
    | .block ss => execStmts fuel ss env r args
    | .labeled l inner =>
        match execStmt fuel inner (l :: labs) env r args with
        | none => none
        | some (c, env1, r1) =>
          match c with
          | .brk (some lp) =>
              if lp = l then some (.norm, env1, r1) else some (.brk (some lp), env1, r1)
          | .cont (some lp) =>
              if lp = l then some (.norm, env1, r1) else some (.cont (some lp), env1, r1)
          | c => some (c, env1, r1)
    | .ifS c t e =>
        let (vc, env1, r1) := evalExpr c env r args
        if truthy vc then execStmt fuel t [] env1 r1 args
        else execStmt fuel e [] env1 r1 args
    | .whileS c b =>
        let (vc, env1, r1) := evalExpr c env r args
        if truthy vc then
          match execStmt fuel b [] env1 r1 args with
          | none => none
          | some (cmp, env2, r2) =>
            match cmp with
            | .norm => execStmt fuel (.whileS c b) labs env2 r2 args
            | .cont none => execStmt fuel (.whileS c b) labs env2 r2 args
            | .cont (some l) =>
                if labs.contains l then execStmt fuel (.whileS c b) labs env2 r2 args
                else some (.cont (some l), env2, r2)
            | .brk none => some (.norm, env2, r2)
            | .brk (some l) =>
                if labs.contains l then some (.norm, env2, r2)
                else some (.brk (some l), env2, r2)
            | .ret v => some (.ret v, env2, r2)
        else some (.norm, env1, r1)

/-- Execute a statement list in order, stopping at the first abrupt
completion; consumes fuel like `execStmt`. -/
def execStmts : Nat → StmtList → Env → FileRecord → List Value →
    Option (Comp × Env × FileRecord)
  | 0, _, _, _, _ => none
  | fuel + 1, ss, env, r, args =>
    match ss with
    | .nil => some (.norm, env, r)
    | .cons s rest =>
        match execStmt fuel s [] env r args with
        | none => none
        | some (c, env1, r1) =>
          match c with
          | .norm => execStmts fuel rest env1 r1 args
          | c => some (c, env1, r1)
end

/-- The object held in the trace-variable global slot: a map from file
key to that file's runtime record. -/
abbrev TraceObj := List (String × FileRecord)

/-- The global namespace: a map from global-slot name to trace object. -/
abbrev Global := List (String × TraceObj)

/-- Create the trace-variable slot in the global namespace if absent
(check-then-create: an existing slot, and any counts in it, are kept). -/
def ensureSlot (g : Global) (tv : String) : Global :=
  if (g.lookup tv).isSome then g else g ++ [(tv, [])]

/-- Create the runtime-record entry for a file key if absent
(check-then-create: existing counts are never reset). -/
def ensureEntry (obj : TraceObj) (key : String) (m : IMap) : TraceObj :=
  if (obj.lookup key).isSome then obj else obj ++ [(key, initRecord m)]

/-- Store an updated record back under its file key. -/
def storeRecord (obj : TraceObj) (key : String) (r : FileRecord) : TraceObj :=
  obj.map (fun p => if p.1 = key then (p.1, r) else p)

/-- Store an updated trace object back under its slot name. -/
def storeSlot (g : Global) (tv : String) (obj : TraceObj) : Global :=
  g.map (fun p => if p.1 = tv then (p.1, obj) else p)

/-- Execute a generated unit the way the test harness does: run the
preamble (lazily creating the trace slot and the file-keyed record entry),
execute the instrumented program with `args` in scope and an `output`
variable initialised to `undefined`, and return the final value of
`output` together with the updated global namespace.  A top-level
`return` completes execution normally (the harness runs the unit as a
function body). -/
def execOutput (fuel : Nat) (out : Output) (args : List Value) (g0 : Global) :
    Option (Value × Global) :=
  let g1 := ensureSlot g0 out.traceVar
  let obj0 := (g1.lookup out.traceVar).getD []
  let obj1 := ensureEntry obj0 out.preambleKey out.imap
  let r0 := (obj1.lookup out.preambleKey).getD (initRecord out.imap)
  match execStmts fuel out.prog [("output", .vundefined)] r0 args with
  | none => none
  | some (_, env, r) =>
      some (envGet env "output", storeSlot g1 out.traceVar (storeRecord obj1 out.preambleKey r))

/-- Read the runtime record stored for a file key under a trace-variable
slot. -/
def traceRecord (g : Global) (tv key : String) : Option FileRecord :=
  (g.lookup tv).bind (fun obj => obj.lookup key)

/-- Instrument a unit of source text and execute the generated unit on
the given arguments against an empty global namespace, as the test
harness does for each fixture (`none` when instrumentation failed or fuel
ran out). -/
def runText (t : JsText) (key : Option String) (opts : Options)
    (args : List Value) (fuel : Nat) : Option (Value × Global) :=
  match instrumentSync (.text t) key opts with
  | .error _ => none
  | .ok out => execOutput fuel out args []

/-- `runText` on a well-formed, shebang-free program. -/
def runFixture (prog : StmtList) (key : Option String) (opts : Options)
    (args : List Value) (fuel : Nat) : Option (Value × Global) :=
  runText ⟨none, .good prog⟩ key opts args fuel

/-! ### The test fixtures (translated from the test sources) -/

/-- The simple-while fixture of `test-while.js`:
`var x = args[0], i=0;` / `while (i < x) i++;` / `output = i;`. -/
def whileFixture : StmtList :=
  .cons (.varDecl [("x", some (.argIdx 0)), ("i", some (.num 0))])
  (.cons (.whileS (.lt (.ident "i") (.ident "x")) (.exprStmt (.postIncr "i")))
  (.cons (.exprStmt (.assign "output" (.ident "i"))) .nil))

/-- The ternary fixture of `test-statement.js`:
`var x = args[0] > 5 ? args[0] : "undef";` / `output = x;`. -/
def ternaryFixture : StmtList :=
  .cons (.varDecl [("x", some (.cond (.gt (.argIdx 0) (.num 5)) (.argIdx 0) (.str "undef")))])
  (.cons (.exprStmt (.assign "output" (.ident "x"))) .nil)

/-- The single-statement fixture of the no-filename test:
`output = args[0];`. -/
def oneLineFixture : StmtList :=
  .cons (.exprStmt (.assign "output" (.argIdx 0))) .nil

/-- The mainline-return fixture: `return 10;`. -/
def returnFixture : StmtList :=
  .cons (.ret (some (.num 10))) .nil

/-- The labeled-while fixture of `test-while.js`:
`var x = args[0], i=0, j=0, output = 0;` /
`outer: while (i++ < x) \x7b j = 0; while (j++ < i) \x7b output++;
if (j === 2) continue outer; \x7d \x7d`. -/
def labeledFixture : StmtList :=
  .cons (.varDecl [("x", some (.argIdx 0)), ("i", some (.num 0)),
                   ("j", some (.num 0)), ("output", some (.num 0))])
  (.cons (.labeled "outer"
    (.whileS (.lt (.postIncr "i") (.ident "x"))
      (.block
        (.cons (.exprStmt (.assign "j" (.num 0)))
        (.cons (.whileS (.lt (.postIncr "j") (.ident "i"))
          (.block
            (.cons (.exprStmt (.postIncr "output"))
            (.cons (.ifS (.stricteq (.ident "j") (.num 2))
                     (.contS (some "outer"))
                     (.block .nil))
             .nil))))
         .nil)))))
   .nil)

/-! ### Density of id assignment

`Extends st st'` says that traversal state `st'` arises from `st` by
allocating some number of consecutive ids in each category, appending
them to the respective map components.  Every instrumentation function
extends its input state, and from the initial state this yields the
dense, 1-based, contiguous id invariant of the specification. -/

/-- State `st'` extends `st` by consecutive freshly assigned ids per
category. -/
def Extends (st st' : IState) : Prop :=
  ∃ ks kb kf,
    st'.sc = st.sc + ks ∧ st'.bc = st.bc + kb ∧ st'.fc = st.fc + kf ∧
    st'.map.statements = st.map.statements ++ List.range' st.sc ks ∧
    st'.map.branches.map Prod.fst = st.map.branches.map Prod.fst ++ List.range' st.bc kb ∧
    st'.map.functions = st.map.functions ++ List.range' st.fc kf

theorem Extends.rfl (st : IState) : Extends st st :=
  ⟨0, 0, 0, by simp, by simp, by simp, by simp, by simp, by simp⟩

theorem Extends.trans {a b c : IState} (h1 : Extends a b) (h2 : Extends b c) :
    Extends a c := by
  obtain ⟨ks, kb, kf, hsc, hbc, hfc, hs, hb, hf⟩ := h1
  obtain ⟨ks', kb', kf', hsc', hbc', hfc', hs', hb', hf'⟩ := h2
  refine ⟨ks' + ks, kb' + kb, kf' + kf, by omega, by omega, by omega, ?_, ?_, ?_⟩
  · rw [hs', hs, hsc, List.append_assoc, List.range'_append_1]
  · rw [hb', hb, hbc, List.append_assoc, List.range'_append_1]
  · rw [hf', hf, hfc, List.append_assoc, List.range'_append_1]

theorem freshS_ext (st : IState) : Extends st (freshS st).2 :=
  ⟨1, 0, 0, by simp [freshS], by simp [freshS], by simp [freshS],
    by simp [freshS], by simp [freshS], by simp [freshS]⟩

theorem freshB_ext (alts : Nat) (st : IState) : Extends st (freshB alts st).2 :=
  ⟨0, 1, 0, by simp [freshB], by simp [freshB], by simp [freshB],
    by simp [freshB], by simp [freshB], by simp [freshB]⟩

theorem freshF_ext (st : IState) : Extends st (freshF st).2 :=
  ⟨0, 0, 1, by simp [freshF], by simp [freshF], by simp [freshF],
    by simp [freshF], by simp [freshF], by simp [freshF]⟩

theorem instExpr_ext (e : Expr) : ∀ st : IState, Extends st (instExpr e st).2 := by
  induction e with
  | num n => intro st; exact Extends.rfl st
  | str s => intro st; exact Extends.rfl st
  | ident x => intro st; exact Extends.rfl st
  | argIdx i => intro st; exact Extends.rfl st
  | lt a b iha ihb =>
      intro st
      rcases ha : instExpr a st with ⟨a', st1⟩
      rcases hb : instExpr b st1 with ⟨b', st2⟩
      have h1 := iha st; rw [ha] at h1
      have h2 := ihb st1; rw [hb] at h2
      simpa [instExpr, ha, hb] using Extends.trans h1 h2
  | gt a b iha ihb =>
      intro st
      rcases ha : instExpr a st with ⟨a', st1⟩
      rcases hb : instExpr b st1 with ⟨b', st2⟩
      have h1 := iha st; rw [ha] at h1
      have h2 := ihb st1; rw [hb] at h2
      simpa [instExpr, ha, hb] using Extends.trans h1 h2
  | stricteq a b iha ihb =>
      intro st
      rcases ha : instExpr a st with ⟨a', st1⟩
      rcases hb : instExpr b st1 with ⟨b', st2⟩
      have h1 := iha st; rw [ha] at h1
      have h2 := ihb st1; rw [hb] at h2
      simpa [instExpr, ha, hb] using Extends.trans h1 h2
  | cond c t e ihc iht ihe =>
      intro st
      rcases hb : freshB 2 st with ⟨bid, st1⟩
      rcases hc : instExpr c st1 with ⟨c', st2⟩
      rcases ht : instExpr t st2 with ⟨t', st3⟩
      rcases he : instExpr e st3 with ⟨e', st4⟩
      have h0 := freshB_ext 2 st; rw [hb] at h0
      have h1 := ihc st1; rw [hc] at h1
      have h2 := iht st2; rw [ht] at h2
      have h3 := ihe st3; rw [he] at h3
      simpa [instExpr, hb, hc, ht, he] using
        Extends.trans h0 (Extends.trans h1 (Extends.trans h2 h3))
  | assign x e ih =>
      intro st
      rcases he : instExpr e st with ⟨e', st1⟩
      have h1 := ih st; rw [he] at h1
      simpa [instExpr, he] using h1
  | postIncr x => intro st; exact Extends.rfl st
  | incrB i k e ih =>
      intro st
      rcases he : instExpr e st with ⟨e', st1⟩
      have h1 := ih st; rw [he] at h1
      simpa [instExpr, he] using h1

theorem instExprOpt_ext (eo : Option Expr) (st : IState) :
    Extends st (instExprOpt eo st).2 := by
  cases eo with
  | none => exact Extends.rfl st
  | some e =>
      rcases he : instExpr e st with ⟨e', st1⟩
      have h1 := instExpr_ext e st; rw [he] at h1
      simpa [instExprOpt, he] using h1

theorem instDecls_ext (ds : List (String × Option Expr)) :
    ∀ st : IState, Extends st (instDecls ds st).2 := by
  induction ds with
  | nil => intro st; exact Extends.rfl st
  | cons d rest ih =>
      intro st
      rcases d with ⟨x, eo⟩
      rcases ho : instExprOpt eo st with ⟨eo', st1⟩
      rcases hr : instDecls rest st1 with ⟨rest', st2⟩
      have h1 := instExprOpt_ext eo st; rw [ho] at h1
      have h2 := ih st1; rw [hr] at h2
      simpa [instDecls, ho, hr] using Extends.trans h1 h2

mutual
theorem instStmt_ext (s : Stmt) (st : IState) : Extends st (instStmt s st).2 := by
  cases s with
  | block ss => exact instStmts_ext ss st
  | varDecl ds =>
      exact Extends.trans (freshS_ext st) (instDecls_ext ds (freshS st).2)
  | exprStmt e =>
      exact Extends.trans (freshS_ext st) (instExpr_ext e (freshS st).2)
  | whileS c b =>
      exact Extends.trans (freshS_ext st)
        (Extends.trans (instExpr_ext c (freshS st).2)
          (instStmt_ext b (instExpr c (freshS st).2).2))
  | ifS c t e =>
      exact Extends.trans (freshS_ext st)
        (Extends.trans (freshB_ext 2 (freshS st).2)
          (Extends.trans (instExpr_ext c (freshB 2 (freshS st).2).2)
            (Extends.trans (instStmt_ext t (instExpr c (freshB 2 (freshS st).2).2).2)
              (instStmt_ext e (instStmt t (instExpr c (freshB 2 (freshS st).2).2).2).2))))
  | ret eo =>
      exact Extends.trans (freshS_ext st) (instExprOpt_ext eo (freshS st).2)
  | labeled l inner =>
      cases inner with
      | whileS c b =>
          exact Extends.trans (freshS_ext st)
            (Extends.trans (freshS_ext (freshS st).2)
              (Extends.trans (instExpr_ext c (freshS (freshS st).2).2)
                (instStmt_ext b (instExpr c (freshS (freshS st).2).2).2)))
      | block ss =>
          exact Extends.trans (freshS_ext st) (instStmts_ext ss (freshS st).2)
      | varDecl ds =>
          exact Extends.trans (freshS_ext st) (instStmt_ext (.varDecl ds) (freshS st).2)
      | exprStmt e =>
          exact Extends.trans (freshS_ext st) (instStmt_ext (.exprStmt e) (freshS st).2)
      | ifS c t e =>
          exact Extends.trans (freshS_ext st) (instStmt_ext (.ifS c t e) (freshS st).2)
      | ret eo =>
          exact Extends.trans (freshS_ext st) (instStmt_ext (.ret eo) (freshS st).2)
      | labeled l2 s2 =>
          exact Extends.trans (freshS_ext st) (instStmt_ext (.labeled l2 s2) (freshS st).2)
      | contS l2 =>
          exact Extends.trans (freshS_ext st) (instStmt_ext (.contS l2) (freshS st).2)
      | brkS l2 =>
          exact Extends.trans (freshS_ext st) (instStmt_ext (.brkS l2) (freshS st).2)
      | funcDecl f ps body =>
          exact Extends.trans (freshS_ext st)
            (instStmt_ext (.funcDecl f ps body) (freshS st).2)
      | incrS i =>
          exact Extends.trans (freshS_ext st) (instStmt_ext (.incrS i) (freshS st).2)
      | incrF i =>
          exact Extends.trans (freshS_ext st) (instStmt_ext (.incrF i) (freshS st).2)
      | emptyS =>
          exact Extends.trans (freshS_ext st) (instStmt_ext .emptyS (freshS st).2)
  | contS l => exact freshS_ext st
  | brkS l => exact freshS_ext st
  | funcDecl f ps body =>
      exact Extends.trans (freshS_ext st)
        (Extends.trans (freshF_ext (freshS st).2)
          (instStmts_ext body (freshF (freshS st).2).2))
  | incrS i => exact freshS_ext st
  | incrF i => exact freshS_ext st
  | emptyS => exact freshS_ext st
  termination_by (sizeOf s, 1)

theorem instStmts_ext (ss : StmtList) (st : IState) : Extends st (instStmts ss st).2 := by
  cases ss with
  | nil => exact Extends.rfl st
  | cons s rest =>
      exact Extends.trans (instStmt_ext s st) (instStmts_ext rest (instStmt s st).2)
  termination_by (sizeOf ss, 0)
end

/-- Dense, 1-based, contiguous id assignment within each category: the
ids of a category are exactly `1..N` for its count `N` of indexed
nodes. -/
def IMap.dense (m : IMap) : Prop :=
  m.statements = List.range' 1 m.statements.length ∧
  m.branches.map Prod.fst = List.range' 1 m.branches.length ∧
  m.functions = List.range' 1 m.functions.length

theorem instStmts_dense (p : StmtList) : ((instStmts p initState).2.map).dense := by
  obtain ⟨ks, kb, kf, hsc, hbc, hfc, hs, hb, hf⟩ := instStmts_ext p initState
  refine ⟨?_, ?_, ?_⟩
  · rw [hs]; simp [initState]
  · have hlen : (instStmts p initState).2.map.branches.length = kb := by
      have := congrArg List.length hb
      simpa [initState] using this
    rw [hb, hlen]; simp [initState]
  · rw [hf]; simp [initState]

/-! ### The claims -/

/-- C1: instrumenting `var x = args[0], i=0; while (i < x) i++; output = i;`
and executing the generated text yields statement hit counts
`{1:1, 2:1, 3:1, 4:1}` for input `1` and `{1:1, 2:1, 3:10, 4:1}` for input
`10`: the loop-body statement keeps one stable id (3) whose count equals
the iteration count, and the `while` loop contributes no branch ids (the
branch map is empty, and the instrumentation map assigns no branch id at
all). -/
theorem c1_while_loop_statement_counts :
    runFixture whileFixture (some "test-while.js") ⟨"$$trace$$", false⟩ [.vnum 1] 1000
      = some (.vnum 1,
          [("$$trace$$", [("test-while.js", ⟨[(1, 1), (2, 1), (3, 1), (4, 1)], [], []⟩)])]) ∧
    runFixture whileFixture (some "test-while.js") ⟨"$$trace$$", false⟩ [.vnum 10] 1000
      = some (.vnum 10,
          [("$$trace$$", [("test-while.js", ⟨[(1, 1), (2, 1), (3, 10), (4, 1)], [], []⟩)])]) ∧
    imapOf whileFixture = ⟨[1, 2, 3, 4], [], []⟩ :=
  ⟨by decide, by decide, by decide⟩

/-- C2: instrumenting `var x = args[0] > 5 ? args[0] : "undef"; output = x;`
and executing the generated text with input `10` yields branch map
`{1:[1,0]}` and output `10`, and with input `1` yields `{1:[0,1]}` and
output `"undef"`: the ternary is one branch id with two alternatives, the
taken alternative increments its 0-based slot exactly once, and the
alternative not taken stays at `0`. -/
theorem c2_ternary_branch_counts :
    runFixture ternaryFixture (some "test-statement.js") ⟨"$$trace$$", false⟩ [.vnum 10] 1000
      = some (.vnum 10,
          [("$$trace$$", [("test-statement.js", ⟨[(1, 1), (2, 1)], [(1, [1, 0])], []⟩)])]) ∧
    runFixture ternaryFixture (some "test-statement.js") ⟨"$$trace$$", false⟩ [.vnum 1] 1000
      = some (.vstr "undef",
          [("$$trace$$", [("test-statement.js", ⟨[(1, 1), (2, 1)], [(1, [0, 1])], []⟩)])]) :=
  ⟨by decide, by decide⟩

/-- C3: for every source unit, prepending a shebang first line (such as
`#!/usr/bin/env node`) yields exactly the same instrumentation result —
and hence, after execution, the same statement, branch and function ids
and counts — as the same unit without the shebang; the shebang is
neutralised by preprocessing before parsing, so it never causes a parse
failure. -/
theorem c3_shebang_transparency (sb : String) (body : SrcBody) (key : Option String)
    (opts : Options) :
    instrumentSync (.text ⟨some sb, body⟩) key opts
      = instrumentSync (.text ⟨none, body⟩) key opts ∧
    ∀ args fuel, runText ⟨some sb, body⟩ key opts args fuel
      = runText ⟨none, body⟩ key opts args fuel :=
  ⟨rfl, fun _ _ => rfl⟩

/-- C4: the unit `return 10;` instruments and executes successfully under
the default options (wrapping enabled), while with `noAutoWrap` enabled it
fails with the same kind of failure as a parse error; and wrapping has no
effect on id assignment or count semantics: whenever the unwrapped variant
succeeds, the wrapped variant produces the identical instrumented program
and map, differing only in the `wrapped` flag. -/
theorem c4_wrapping_policy :
    runFixture returnFixture (some "test-statement.js") ⟨"$$trace$$", false⟩ [] 1000
      = some (.vundefined, [("$$trace$$", [("test-statement.js", ⟨[(1, 1)], [], []⟩)])]) ∧
    (∀ key tv, instrumentSync (.text ⟨none, .good returnFixture⟩) key ⟨tv, true⟩
        = .error (.parseErr "Illegal return statement")) ∧
    (∀ t key tv out,
        instrumentSync (.text t) key ⟨tv, true⟩ = .ok out →
        instrumentSync (.text t) key ⟨tv, false⟩ = .ok { out with wrapped := true }) := by
  refine ⟨by decide, fun key tv => rfl, ?_⟩
  intro t key tv out h
  rcases t with ⟨sb, body⟩
  cases body with
  | bad msg => simp [instrumentSync, preprocess, parseAdapter] at h
  | good p =>
    by_cases hr : listHasReturn p = true
    · simp [instrumentSync, preprocess, parseAdapter, hr] at h
    · rcases hi : instStmts p initState with ⟨p', stf⟩
      simp [instrumentSync, preprocess, parseAdapter, hr, hi] at h
      subst h
      simp [instrumentSync, preprocess, parseAdapter, hr, hi]

/-- Witness for C4 at the ternary fixture: the `noAutoWrap` variant
succeeds there, and the default variant yields the same output with only
the `wrapped` flag flipped. -/
theorem c4_wrapping_policy_witness :
    ∃ out : Output,
      instrumentSync (.text ⟨none, .good ternaryFixture⟩) (some "test-statement.js")
        ⟨"$$trace$$", true⟩ = .ok out ∧
      instrumentSync (.text ⟨none, .good ternaryFixture⟩) (some "test-statement.js")
        ⟨"$$trace$$", false⟩ = .ok { out with wrapped := true } :=
  ⟨_, rfl, c4_wrapping_policy.2.2 ⟨none, .good ternaryFixture⟩ (some "test-statement.js")
      "$$trace$$" _ rfl⟩

/-- C5: for every syntactically invalid source unit (whatever its
parse-error message, with or without a shebang line), instrumentation
yields a parse failure through the error channel and never a generated
text: no outcome produces both an error and an output. -/
theorem c5_parse_failure_exclusive (sb : Option String) (msg : String) (key : Option String)
    (opts : Options) :
    instrumentSync (.text ⟨sb, .bad msg⟩) key opts = .error (.parseErr msg) ∧
    ∀ out : Output, instrumentSync (.text ⟨sb, .bad msg⟩) key opts ≠ .ok out := by
  refine ⟨rfl, ?_⟩
  intro out h
  simp [instrumentSync, preprocess, parseAdapter] at h

/-- Witness for C5 at the stray-colon fixture of the test suite. -/
theorem c5_parse_failure_exclusive_witness :
    instrumentSync (.text ⟨none, .bad "Unexpected token :"⟩) none ⟨"$$trace$$", false⟩
      = .error (.parseErr "Unexpected token :") ∧
    ∀ out : Output, instrumentSync (.text ⟨none, .bad "Unexpected token :"⟩) none
      ⟨"$$trace$$", false⟩ ≠ .ok out :=
  c5_parse_failure_exclusive none "Unexpected token :" none ⟨"$$trace$$", false⟩

/-- C6: calling the synchronous entry point with a non-text input always
raises the precondition violation (for every key and option set, before
the body could even be consulted), and this failure is never the
parse-failure kind used by the error channel for malformed source. -/
theorem c6_nontext_precondition (d : String) (key : Option String) (opts : Options) :
    instrumentSync (.nonText d) key opts = .error (.typeErr "Code must be a string") ∧
    ∀ msg, instrumentSync (.nonText d) key opts ≠ .error (.parseErr msg) := by
  refine ⟨rfl, ?_⟩
  intro msg h
  simp [instrumentSync] at h

/-- Witness for C6 at the object input of the test suite. -/
theorem c6_nontext_precondition_witness :
    instrumentSync (.nonText "[object Object]") (some "foo.js") ⟨"$$trace$$", false⟩
      = .error (.typeErr "Code must be a string") ∧
    ∀ msg, instrumentSync (.nonText "[object Object]") (some "foo.js") ⟨"$$trace$$", false⟩
      ≠ .error (.parseErr msg) :=
  c6_nontext_precondition "[object Object]" (some "foo.js") ⟨"$$trace$$", false⟩

/-- C7: the file key under which the runtime-record entry is created is
byte-for-byte the caller-supplied string (the output's preamble key equals
the supplied key, with the internal placeholder `undefined.js` only when
no key was supplied; every successful execution stores the record under
exactly that key), the Windows-style key `c:\a\b\c\d\e.js` is stored
exactly as given, and instrumentation and execution succeed with no key
supplied. -/
theorem c7_key_fidelity :
    (∀ t key opts out, instrumentSync (.text t) key opts = .ok out →
        out.preambleKey = key.getD "undefined.js") ∧
    (∀ out args fuel v g, execOutput fuel out args [] = some (v, g) →
        ∃ r, traceRecord g out.traceVar out.preambleKey = some r) ∧
    runFixture ternaryFixture (some "c:\\a\\b\\c\\d\\e.js") ⟨"$$trace$$", false⟩ [.vnum 1] 1000
      = some (.vstr "undef",
          [("$$trace$$", [("c:\\a\\b\\c\\d\\e.js", ⟨[(1, 1), (2, 1)], [(1, [0, 1])], []⟩)])]) ∧
    runFixture oneLineFixture none ⟨"$$trace$$", false⟩ [.vnum 1] 1000
      = some (.vnum 1, [("$$trace$$", [("undefined.js", ⟨[(1, 1)], [], []⟩)])]) := by
  refine ⟨?_, ?_, by decide, by decide⟩
  · intro t key opts out h
    rcases t with ⟨sb, body⟩
    rcases opts with ⟨tv, naw⟩
    cases body with
    | bad msg => simp [instrumentSync, preprocess, parseAdapter] at h
    | good p =>
      cases naw with
      | false =>
          rcases hi : instStmts p initState with ⟨p', stf⟩
          simp [instrumentSync, preprocess, parseAdapter, hi] at h
          subst h; rfl
      | true =>
          by_cases hr : listHasReturn p = true
          · simp [instrumentSync, preprocess, parseAdapter, hr] at h
          · rcases hi : instStmts p initState with ⟨p', stf⟩
            simp [instrumentSync, preprocess, parseAdapter, hr, hi] at h
            subst h; rfl
  · intro out args fuel v g h
    unfold execOutput at h
    simp only [ensureSlot, ensureEntry, List.lookup_nil] at h
    simp at h
    rcases he : execStmts fuel out.prog [("output", .vundefined)] (initRecord out.imap) args
      with _ | ⟨c, env, r⟩ <;> rw [he] at h
    · simp at h
    · simp at h
      refine ⟨r, ?_⟩
      rw [← h.2]
      simp [traceRecord, storeSlot, storeRecord]

/-- Witness for C7 at the Windows-style path of the test suite. -/
theorem c7_key_fidelity_witness :
    ∃ out : Output,
      instrumentSync (.text ⟨none, .good ternaryFixture⟩) (some "c:\\a\\b\\c\\d\\e.js")
        ⟨"$$trace$$", false⟩ = .ok out ∧
      out.preambleKey = "c:\\a\\b\\c\\d\\e.js" :=
  ⟨_, rfl, c7_key_fidelity.1 ⟨none, .good ternaryFixture⟩ (some "c:\\a\\b\\c\\d\\e.js")
      ⟨"$$trace$$", false⟩ _ rfl⟩

/-- C8: for every successfully instrumented source unit, the
instrumentation map's ids are dense, 1-based and contiguous within each
of the three categories — statements, branches, functions — i.e. each
category's ids are exactly `1..N` for its count `N` of indexed nodes. -/
theorem c8_dense_ids (input : JsInput) (key : Option String) (opts : Options) (out : Output)
    (h : instrumentSync input key opts = .ok out) : out.imap.dense := by
  cases input with
  | nonText d => simp [instrumentSync] at h
  | text t =>
    cases hp : parseAdapter (preprocess t) (!opts.noAutoWrap) with
    | error e => simp [instrumentSync, hp] at h
    | ok p =>
      rcases hi : instStmts p initState with ⟨p', stf⟩
      simp [instrumentSync, hp, hi] at h
      have hd := instStmts_dense p
      rw [hi] at hd
      rw [← h]
      exact hd

/-- Witness for C8 at the labeled-while fixture (ids 1..8 for statements,
id 1 for the single branch). -/
theorem c8_dense_ids_witness :
    ∃ out : Output,
      instrumentSync (.text ⟨none, .good labeledFixture⟩) (some "test-while.js")
        ⟨"$$trace$$", false⟩ = .ok out ∧ out.imap.dense :=
  ⟨_, rfl, c8_dense_ids (.text ⟨none, .good labeledFixture⟩) (some "test-while.js")
      ⟨"$$trace$$", false⟩ _ rfl⟩

/-- C9 counterexample: the claim states the entry is created with `s`
starting as an empty map (only `b` pre-seeded), but the statement map of
the freshly created entry for the while fixture is not empty — it
pre-seeds every statement id with a zero count (id 3 is present at 0),
and after a run in which the loop body never executed the observable
statement map is `{1:1, 2:1, 3:0, 4:1}` (the in-repository expectation of
`should not trace loop at all`), which an empty initial `s` plus probe
increments could never produce. -/
theorem c9_preseed_counterexample :
    (initRecord (imapOf whileFixture)).s ≠ [] ∧
    (initRecord (imapOf whileFixture)).s.lookup 3 = some 0 ∧
    runFixture whileFixture (some "test-while.js") ⟨"$$trace$$", false⟩ [.vnum (-1)] 1000
      = some (.vnum 0,
          [("$$trace$$", [("test-while.js", ⟨[(1, 1), (2, 1), (3, 0), (4, 1)], [], []⟩)])]) :=
  ⟨by decide, by decide, by decide⟩

/-- C9 as amended: on first execution for a file key, the entry is
created (if absent) with `b` pre-seeded with zero-arrays sized to each
branch's alternative count and `f` starting empty — as the claim says —
but with `s` pre-seeded with a zero count per statement id rather than
starting empty; the observable maps are exactly this initialisation plus
the increments performed by executed probes, so statements that never
ran are observable with count 0. -/
theorem c9_preseeded_init (m : IMap) :
    (initRecord m).s = m.statements.map (fun i => (i, 0)) ∧
    (initRecord m).b = m.branches.map (fun p => (p.1, List.replicate p.2 0)) ∧
    (initRecord m).f = [] ∧
    (∀ key, ensureEntry [] key m = [(key, initRecord m)]) ∧
    runFixture whileFixture (some "test-while.js") ⟨"$$trace$$", false⟩ [.vnum (-1)] 1000
      = some (.vnum 0,
          [("$$trace$$", [("test-while.js", ⟨[(1, 1), (2, 1), (3, 0), (4, 1)], [], []⟩)])]) :=
  ⟨rfl, rfl, rfl, fun key => by simp [ensureEntry], by decide⟩

/-- C10: with `traceVariable` set to the dollar-laden name `$$trace$$`,
the generated preamble splices that name verbatim (the marker-substitution
is literal, never a replacement-pattern expansion, so the spliced text and
the output's trace-variable slot carry the exact name), and executing the
generated text creates the runtime record under exactly the global slot
`$$trace$$`. -/
theorem c10_trace_variable_verbatim :
    spliceTemplate preambleTemplate "%TRACE%" "$$trace$$"
      = "if (typeof $$trace$$ === \"undefined\") $$trace$$ = \x7b\x7d;" ∧
    (∀ t key out, instrumentSync (.text t) key ⟨"$$trace$$", false⟩ = .ok out →
        out.traceVar = "$$trace$$" ∧
        out.preambleText = "if (typeof $$trace$$ === \"undefined\") $$trace$$ = \x7b\x7d;") ∧
    runFixture ternaryFixture (some "test.js") ⟨"$$trace$$", false⟩ [.vnum 10] 1000
      = some (.vnum 10, [("$$trace$$", [("test.js", ⟨[(1, 1), (2, 1)], [(1, [1, 0])], []⟩)])]) := by
  refine ⟨by decide, ?_, by decide⟩
  intro t key out h
  rcases t with ⟨sb, body⟩
  cases body with
  | bad msg => simp [instrumentSync, preprocess, parseAdapter] at h
  | good p =>
    rcases hi : instStmts p initState with ⟨p', stf⟩
    simp [instrumentSync, preprocess, parseAdapter, hi] at h
    subst h
    refine ⟨rfl, ?_⟩
    show spliceTemplate preambleTemplate "%TRACE%" "$$trace$$" = _
    decide

/-- Witness for C10 at the ternary fixture with the harness trace-variable
name. -/
theorem c10_trace_variable_verbatim_witness :
    ∃ out : Output,
      instrumentSync (.text ⟨none, .good ternaryFixture⟩) (some "test.js")
        ⟨"$$trace$$", false⟩ = .ok out ∧ out.traceVar = "$$trace$$" :=
  ⟨_, rfl, (c10_trace_variable_verbatim.2.1 ⟨none, .good ternaryFixture⟩ (some "test.js")
      _ rfl).1⟩

end Diffbug
